import Mathlib

/-!
Shallow embedding of the may-http service (src/main.rs): the connection
pool's round-robin selection, the query-parameter clamp, the three database
operations of a connection, the HTML template and the HTTP router.
Machine integers are modelled as Nat; Rust panics are modelled as `none` of
an `Option` result; database I/O is modelled by passing the result set the
database would return as an explicit argument.
-/

/-- Named characters, so escape tables can be written without quote-like
character literals. -/
def quoteChar : Char := Char.ofNat 34

def aposChar : Char := Char.ofNat 39

def backslashChar : Char := Char.ofNat 92

def backtickChar : Char := Char.ofNat 96

/-- A row of the `users` table as selected by every statement in the source:
exactly three columns (id, firstName, lastName). -/
structure Row where
  col0 : String
  col1 : String
  col2 : String
deriving DecidableEq

/-- Error taxonomy at the connection-operation boundary.  `NotFound` models
the zero-row error of `query_one`, `UnexpectedRows` its more-than-one-row
error, `QueryFailed` any lower-level `may_postgres::Error`. -/
inductive DbError where
  | NotFound
  | QueryFailed
  | UnexpectedRows
deriving DecidableEq

/-- The `User` struct of the source (Serialize derive elided). -/
structure User where
  id : String
  firstName : String
  lastName : String
deriving DecidableEq

/-! ## mod utils -/

/-- The pattern searched by `query.find("?q")`. -/
def qPattern : List Char := ['?', 'q']

/-- Model of `str::find(pat)`: index of the first occurrence of `pat`,
scanning from offset `i`. -/
def findSubstrFrom (pat : List Char) : List Char → Nat → Option Nat
  | [], i => if pat.isPrefixOf ([] : List Char) then some i else none
  | c :: cs, i =>
    if pat.isPrefixOf (c :: cs) then some i else findSubstrFrom pat cs (i + 1)

/-- Model of `str::parse::<u16>()`: optional leading plus sign, at least one
digit, decimal value at most 65535. -/
def parseU16Chars (cs : List Char) : Option Nat :=
  let ds := match cs with
    | '+' :: rest => rest
    | _ => cs
  if ds = [] then none
  else if ds.all (fun c => c.isDigit) then
    let v := ds.foldl (fun a c => a * 10 + (c.toNat - 48)) 0
    if v ≤ 65535 then some v else none
  else none

/-- `utils::get_query_param` from the source:
finds `"?q"`, splits three characters past the match (`split_at(pos + 3)` —
which panics, modelled as `none`, when `pos + 3` exceeds the length), parses
the whole remainder as a u16 defaulting to 1, then clamps with
`cmp::min(500, cmp::max(1, q))`.  Positions are character positions, which
agree with Rust's byte positions on ASCII input. -/
def get_query_param (query : String) : Option Nat :=
  match findSubstrFrom qPattern query.data 0 with
  | some pos =>
    if pos + 3 ≤ query.data.length then
      some (min 500 (max 1 ((parseU16Chars (query.data.drop (pos + 3))).getD 1)))
    else
      none
  | none => some (min 500 (max 1 1))

/-- UTF-8 encoding of one character, as the list of its byte values. -/
def utf8Bytes (c : Char) : List Nat :=
  let n := c.toNat
  if n < 128 then [n]
  else if n < 2048 then [192 + n / 64, 128 + n % 64]
  else if n < 65536 then [224 + n / 4096, 128 + (n / 64) % 64, 128 + n % 64]
  else [240 + n / 262144, 128 + (n / 4096) % 64, 128 + (n / 64) % 64, 128 + n % 64]

/-- The UTF-8 byte sequence of a string — the representation Rust's `str`
positions index into. -/
def strBytes (s : String) : List Nat :=
  (s.data.map utf8Bytes).flatten

/-- The bytes of the pattern `"?q"`. -/
def qBytes : List Nat := [63, 113]

/-- Model of `str::find` over the UTF-8 bytes: first byte offset where the
pattern's bytes match.  For a pattern starting with an ASCII byte every byte
match is automatically on a character boundary, as in Rust. -/
def findBytesFrom (pat : List Nat) : List Nat → Nat → Option Nat
  | [], i => if pat.isPrefixOf ([] : List Nat) then some i else none
  | b :: bs, i =>
    if pat.isPrefixOf (b :: bs) then some i else findBytesFrom pat bs (i + 1)

/-- Rust's `str::is_char_boundary`: true at the end of the string and at
any index whose byte is not a UTF-8 continuation byte. -/
def byteIsCharBoundary (bs : List Nat) (i : Nat) : Bool :=
  if i = bs.length then true
  else
    match bs[i]? with
    | some b => decide (b < 128) || decide (192 ≤ b)
    | none => false

/-- Model of `str::parse::<u16>()` over the remainder's bytes: optional
leading plus sign (byte 43), at least one ASCII digit byte, value at most
65535. -/
def parseU16Bytes (bs : List Nat) : Option Nat :=
  let ds := match bs with
    | 43 :: rest => rest
    | _ => bs
  if ds = [] then none
  else if ds.all (fun b => decide (48 ≤ b) && decide (b ≤ 57)) then
    let v := ds.foldl (fun a b => a * 10 + (b - 48)) 0
    if v ≤ 65535 then some v else none
  else none

/-- Byte-faithful `utils::get_query_param`: the same computation as
`get_query_param`, but positions are byte offsets into the UTF-8 encoding
and `query.split_at(pos + 3)` panics (modelled as `none`) not only past the
end of the string but also on a non-character-boundary, exactly as Rust's
`str::split_at`.  On ASCII input byte and character offsets coincide and
every in-range index is a boundary. -/
def get_query_param_rust (query : String) : Option Nat :=
  let bs := strBytes query
  match findBytesFrom qBytes bs 0 with
  | some pos =>
    if pos + 3 ≤ bs.length then
      if byteIsCharBoundary bs (pos + 3) then
        some (min 500 (max 1 ((parseU16Bytes (bs.drop (pos + 3))).getD 1)))
      else none
    else none
  | none => some (min 500 (max 1 1))

/-! ## PgConnectionPool -/

/-- One live database connection; its session and prepared statement are
modelled elsewhere, only identity matters for pool selection. -/
structure PgConnection where
  connId : Nat
deriving DecidableEq

/-- `PgConnectionPool`: an atomic counter plus the fixed vector of clients. -/
structure PgConnectionPool where
  idx : Nat
  clients : List PgConnection
deriving DecidableEq

/-- `PgConnectionPool::get_connection`:
`let idx = self.idx.fetch_add(1, Ordering::Relaxed)` (returns the old value,
stores `idx + 1`), then `self.clients[idx % len].clone()`.  Indexing out of
bounds (only possible when the pool is empty) is a panic, modelled as
`none`. -/
def get_connection (p : PgConnectionPool) :
    Option ((PgConnection × Nat) × PgConnectionPool) :=
  match p.clients[p.idx % p.clients.length]? with
  | some c => some ((c, p.idx), { p with idx := p.idx + 1 })
  | none => none

/-- Iterated `get_connection`: the results of `n` successive calls together
with the final pool state (`none` as soon as one call panics). -/
def poolCalls : Nat → PgConnectionPool →
    Option (List (PgConnection × Nat) × PgConnectionPool)
  | 0, p => some ([], p)
  | n + 1, p =>
    match get_connection p with
    | none => none
    | some (r, p1) =>
      match poolCalls n p1 with
      | none => none
      | some (rs, p2) => some (r :: rs, p2)

/-! ## PgConnection operations -/

/-- Text of the statement prepared once in `PgConnection::new`. -/
def selectUserStmtText : String :=
  "SELECT id, firstName, lastName FROM users WHERE id=$1"

/-- What `get_user` submits to the session: the prepared statement and the
bound parameter list of `query_one(&self.user, &[&id])`. -/
def get_user_call (id : String) : String × List String :=
  (selectUserStmtText, [id])

/-- Model of `Client::query_one`: a lower-level database error is
propagated, zero rows and more than one row are row-count errors, exactly
one row succeeds. -/
def query_one (res : Except Unit (List Row)) : Except DbError Row :=
  match res with
  | Except.error _ => Except.error DbError.QueryFailed
  | Except.ok [] => Except.error DbError.NotFound
  | Except.ok [r] => Except.ok r
  | Except.ok (_ :: _ :: _) => Except.error DbError.UnexpectedRows

/-- `PgConnection::get_user`: `query_one` then positional column mapping
`User { id: row.get(0), firstName: row.get(1), lastName: row.get(2) }`. -/
def get_user (id : String) (res : Except Unit (List Row)) : Except DbError User :=
  match query_one res with
  | Except.error e => Except.error e
  | Except.ok row =>
    Except.ok { id := row.col0, firstName := row.col1, lastName := row.col2 }

/-- Text of the query submitted by `get_users`. -/
def getUsersStmtText : String :=
  "SELECT id, firstName, lastName FROM users LIMIT 10"

/-- `PgConnection::get_users` over the stream of row results the database
returns.  The source examines only the first stream item
(`rows.next().transpose()?` once, no loop): an empty stream hits
`unreachable!()` (a panic, modelled as `none`), an error item is propagated
by `?`, and a row item is mapped and pushed as the only element. -/
def get_users (stream : List (Except Unit Row)) :
    Option (Except DbError (List User)) :=
  match stream with
  | [] => none
  | Except.error _ :: _ => some (Except.error DbError.QueryFailed)
  | Except.ok row :: _ =>
    some (Except.ok
      [{ id := row.col0, firstName := row.col1, lastName := row.col2 }])

/-- The statement string built by `PgConnection::update`: two constant
`push_str` calls onto an empty string (the `with_capacity` size hint does
not affect the contents).  No argument is interpolated into the text. -/
def update_statement (id firstName lastName : String) : String :=
  let update0 : String := ""
  let update1 := update0 ++ "UPDATE users SET firstName = $1, lastName = $2 FROM (VALUES "
  update1 ++ " WHERE id = $3"

/-- The argument values `update` passes to the session alongside the
statement text. -/
def update_params (id firstName lastName : String) : List String :=
  [id, firstName, lastName]

/-! ## Template and JSON rendering -/

/-- Per-character table of `v_htmlescape::escape` (OWASP table). -/
def vEscapeChar (c : Char) : List Char :=
  if c = quoteChar then "&quot;".data
  else if c = '&' then "&amp;".data
  else if c = aposChar then "&#x27;".data
  else if c = '/' then "&#x2f;".data
  else if c = '<' then "&lt;".data
  else if c = '=' then "&#x3d;".data
  else if c = '>' then "&gt;".data
  else if c = backtickChar then "&#x60;".data
  else [c]

/-- `v_htmlescape::escape` over a whole string. -/
def vEscape (s : String) : String :=
  String.mk ((s.data.map vEscapeChar).flatten)

/-- Per-character table of the `markup` crate's default auto-escape, applied
to every `{expr}` value not wrapped in `markup::raw`. -/
def markupEscapeChar (c : Char) : List Char :=
  if c = '&' then "&amp;".data
  else if c = '<' then "&lt;".data
  else if c = '>' then "&gt;".data
  else if c = quoteChar then "&quot;".data
  else [c]

/-- The `markup` crate's default escaping over a whole string. -/
def markupEscape (s : String) : String :=
  String.mk ((s.data.map markupEscapeChar).flatten)

/-- One table row of `UsersTemplate`: the id cell goes through markup's
default escaping, the name cells through `markup::raw(v_htmlescape::escape(..))`. -/
def userRowHtml (u : User) : String :=
  "<tr><td>" ++ markupEscape u.id ++ "</td><td>" ++ vEscape u.firstName
    ++ "</td><td>" ++ vEscape u.lastName ++ "</td></tr>"

/-- Static prefix of the rendered template, up to the `@for` loop. -/
def templateHeader : String :=
  "<!DOCTYPE html><html><head><title>Users</title></head><body><table><tr><th>id</th><th>message</th></tr>"

/-- Static suffix of the rendered template, after the `@for` loop. -/
def templateFooter : String := "</table></body></html>"

/-- The `@for u in users` loop body, concatenated in order. -/
def usersBodyHtml : List User → String
  | [] => ""
  | u :: us => userRowHtml u ++ usersBodyHtml us

/-- Full rendering of `UsersTemplate { users }`. -/
def usersTemplateRender (users : List User) : String :=
  templateHeader ++ usersBodyHtml users ++ templateFooter

/-- Per-character JSON string escaping as performed by `serde_json`. -/
def jsonEscapeChar (c : Char) : List Char :=
  if c = quoteChar then [backslashChar, quoteChar]
  else if c = backslashChar then [backslashChar, backslashChar]
  else if c = '\n' then [backslashChar, 'n']
  else if c = '\r' then [backslashChar, 'r']
  else if c = '\t' then [backslashChar, 't']
  else if c.toNat < 32 then
    [backslashChar, 'u', '0', '0',
      (if c.toNat / 16 < 10 then Char.ofNat (48 + c.toNat / 16)
        else Char.ofNat (87 + c.toNat / 16)),
      (if c.toNat % 16 < 10 then Char.ofNat (48 + c.toNat % 16)
        else Char.ofNat (87 + c.toNat % 16))]
  else [c]

/-- JSON encoding of a string value. -/
def jsonString (s : String) : String :=
  String.mk (quoteChar :: (s.data.map jsonEscapeChar).flatten ++ [quoteChar])

/-- serde_json encoding of one `User`. -/
def jsonUser (u : User) : String :=
  "\x7b\"id\":" ++ jsonString u.id ++ ",\"firstName\":" ++ jsonString u.firstName
    ++ ",\"lastName\":" ++ jsonString u.lastName ++ "\x7d"

/-- serde_json encoding of a `Vec<User>`. -/
def jsonUsers (us : List User) : String :=
  "[" ++ String.intercalate (",") (us.map jsonUser) ++ "]"

/-! ## App (HttpService) -/

/-- An HTTP response as assembled through `may_minihttp::Response`: the
default status is `200 Ok` and only the fallthrough arm overrides it. -/
structure HttpResponse where
  statusCode : String
  statusMessage : String
  headers : List String
  body : String
deriving DecidableEq

/-- Rust `str::starts_with` over the character list. -/
def startsWithChars (s pre : String) : Bool :=
  pre.data.isPrefixOf s.data

/-- `App::call` from the source.  `path` is `req.path()` (which includes the
query string).  The database is external, so the result set the `/users`
query would stream back and the outcome of the `/webhook` update are passed
as arguments.  Both router arms call `.unwrap()` on the connection
operation's result: a failure there is a panic, modelled as `none`. -/
def App.call (path : String) (stream : List (Except Unit Row))
    (updOutcome : Except DbError (List User)) : Option HttpResponse :=
  if path = ("/users") then
    match get_users stream with
    | none => none
    | some (Except.error _) => none
    | some (Except.ok users) =>
      some { statusCode := "200", statusMessage := "Ok",
             headers := ["Content-Type: text/html; charset=utf-8"],
             body := usersTemplateRender users }
  else if startsWithChars path ("/webhook") then
    match get_query_param path with
    | none => none
    | some _q =>
      match updOutcome with
      | Except.error _ => none
      | Except.ok users =>
        some { statusCode := "200", statusMessage := "Ok",
               headers := ["Content-Type: application/json"],
               body := jsonUsers users }
  else
    some { statusCode := "404", statusMessage := "Not Found",
           headers := [], body := "" }

/-! ## Theorems -/

/-- C3 (code evaluated at the failing input): on a database result set with
zero rows, `get_users` does not return an empty sequence as a success — it
reaches `unreachable!()` and panics. -/
theorem get_users_empty_panics : get_users [] = none := rfl

/-- C4 (code evaluated at the failing input): for a two-row result set,
`get_users` maps only the first row, returning a one-element sequence — the
second database-returned row is missing from the output, so the code does
not map each returned row to a record of the result sequence. -/
theorem get_users_maps_only_first_row :
    get_users [Except.ok ⟨"1", "Ada", "L"⟩, Except.ok ⟨"2", "Bob", "M"⟩]
      = some (Except.ok [{ id := "1", firstName := "Ada", lastName := "L" }]) := rfl

/-- C7: `get_user` submits the prepared select-by-id statement with `id` as
its single bound parameter; zero rows fail with `NotFound` (no crash, no
default-valued record), a lower-level database error fails with
`QueryFailed`, and a single row is mapped positionally to
(identifier, first name, last name). -/
theorem get_user_spec :
    (∀ id : String, get_user_call id = (selectUserStmtText, [id]))
    ∧ (∀ id : String, get_user id (Except.ok []) = Except.error DbError.NotFound)
    ∧ (∀ (id : String) (err : Unit),
        get_user id (Except.error err) = Except.error DbError.QueryFailed)
    ∧ (∀ (id : String) (r : Row),
        get_user id (Except.ok [r])
          = Except.ok { id := r.col0, firstName := r.col1, lastName := r.col2 }) :=
  ⟨fun _ => rfl, fun _ => rfl, fun _ _ => rfl, fun _ _ => rfl⟩

/-- C8: the statement texts submitted by the three connection operations do
not depend on the argument values — for any two argument tuples the texts
are identical — and the argument values travel only in the bound-parameter
lists. -/
theorem statement_text_constant :
    (∀ a b c a2 b2 c2 : String,
      update_statement a b c = update_statement a2 b2 c2)
    ∧ (∀ a a2 : String, (get_user_call a).1 = (get_user_call a2).1)
    ∧ (∀ a b c : String, update_params a b c = [a, b, c])
    ∧ (∀ a : String, (get_user_call a).2 = [a]) :=
  ⟨fun _ _ _ _ _ _ => rfl, fun _ _ => rfl, fun _ _ _ => rfl, fun _ => rfl⟩

/-- C5 (counterexample): `get_query_param` is not total over query strings —
when `"?q"` occurs with no character after it, `split_at(pos + 3)` is past
the end of the string and panics. -/
theorem get_query_param_panic_short : get_query_param ("/webhook?q") = none := by
  rfl

/-- Reduction of `get_query_param` when `"?q"` does not occur. -/
theorem get_query_param_none_eq (s : String)
    (h : findSubstrFrom qPattern s.data 0 = none) :
    get_query_param s = some 1 := by
  unfold get_query_param
  rw [h]
  show some (min 500 (max 1 1)) = some 1
  decide

/-- Reduction of `get_query_param` when `"?q"` first occurs at `pos` and the
split point is within the string. -/
theorem get_query_param_some_eq (s : String) (pos : Nat)
    (h : findSubstrFrom qPattern s.data 0 = some pos)
    (hle : pos + 3 ≤ s.data.length) :
    get_query_param s
      = some (min 500 (max 1 ((parseU16Chars (s.data.drop (pos + 3))).getD 1))) := by
  unfold get_query_param
  rw [h]
  exact if_pos hle

/-- C5 (amended): for every ASCII query string whose first `"?q"` occurrence
(if any) is followed by at least one character, `get_query_param` returns an
integer in [1, 500]; concretely `q=0` yields 1, `q=9999` yields 500, `q=501`
yields 500, and an unparsable or missing `q` yields the default 1. -/
theorem get_query_param_in_range (s : String)
    (hascii : ∀ c ∈ s.data, c.toNat < 128)
    (hsafe : ∀ pos, findSubstrFrom qPattern s.data 0 = some pos →
      pos + 3 ≤ s.data.length) :
    (∃ n, get_query_param s = some n ∧ 1 ≤ n ∧ n ≤ 500)
    ∧ get_query_param ("/webhook?q=0") = some 1
    ∧ get_query_param ("/webhook?q=9999") = some 500
    ∧ get_query_param ("/webhook?q=501") = some 500
    ∧ get_query_param ("/webhook?q=abc") = some 1
    ∧ get_query_param ("/webhook") = some 1 := by
  refine ⟨?_, by decide, by decide, by decide, by decide, by decide⟩
  cases hf : findSubstrFrom qPattern s.data 0 with
  | none =>
    exact ⟨1, get_query_param_none_eq s hf, le_refl 1, by omega⟩
  | some pos =>
    have hle := hsafe pos hf
    exact ⟨min 500 (max 1 ((parseU16Chars (s.data.drop (pos + 3))).getD 1)),
      get_query_param_some_eq s pos hf hle,
      le_min (by omega) (Nat.le_max_left 1 _),
      Nat.min_le_left 500 _⟩

/-- C5 (witness): the amended theorem applied at `"/webhook?q=7"`. -/
theorem get_query_param_in_range_witness :
    (∃ n, get_query_param ("/webhook?q=7") = some n ∧ 1 ≤ n ∧ n ≤ 500)
    ∧ get_query_param ("/webhook?q=0") = some 1
    ∧ get_query_param ("/webhook?q=9999") = some 500
    ∧ get_query_param ("/webhook?q=501") = some 500
    ∧ get_query_param ("/webhook?q=abc") = some 1
    ∧ get_query_param ("/webhook") = some 1 :=
  get_query_param_in_range ("/webhook?q=7") (by decide)
    (by
      intro pos h
      have he : findSubstrFrom qPattern ("/webhook?q=7").data 0 = some 8 := by
        decide
      rw [he] at h
      injection h with h2
      subst h2
      decide)

/-- C9 (counterexample): the claim is not true of the program over all
query strings.  At `"/webhook?q\u00e9"` the first `"?q"` occurrence is
followed by further characters, so the claim says the default 1 is
returned; but byte 11 falls inside the two-byte encoding of the final
character, so the source's `split_at(pos + 3)` hits a non-character
boundary and panics (byte-faithful model: `none`), while the
character-position model returns `some 1` there. -/
theorem get_query_param_nonascii_panics :
    get_query_param_rust ("/webhook?q\u00e9") = none
    ∧ get_query_param ("/webhook?q\u00e9") = some 1 := ⟨by decide, by decide⟩

/-- C9 (amended): for ASCII query strings — where character positions
coincide with Rust's byte positions and every in-range index is a character
boundary — `get_query_param` parses only at the first occurrence of `"?q"`,
and only the entire remainder after that occurrence plus one character is
parsed as a u16: without an occurrence the result is the default 1, a
remainder that is not a valid u16 (for example because a `q` value is
followed by further characters) also gives the default 1, and a valid
remainder gives the clamped parsed value.  The sample strings
`"/webhook?a=1&q=7"` (no `"?q"` occurrence) and `"/webhook?q=7&b=2"`
(remainder `"7&b=2"` unparsable) both yield 1, also under the
byte-faithful model. -/
theorem get_query_param_first_occurrence (s : String) (pos : Nat)
    (hascii : ∀ c ∈ s.data, c.toNat < 128) :
    (findSubstrFrom qPattern s.data 0 = none → get_query_param s = some 1)
    ∧ (findSubstrFrom qPattern s.data 0 = some pos → pos + 3 ≤ s.data.length →
        get_query_param s
          = some (min 500 (max 1 ((parseU16Chars (s.data.drop (pos + 3))).getD 1))))
    ∧ (findSubstrFrom qPattern s.data 0 = some pos → pos + 3 ≤ s.data.length →
        parseU16Chars (s.data.drop (pos + 3)) = none →
        get_query_param s = some 1)
    ∧ get_query_param ("/webhook?a=1&q=7") = some 1
    ∧ get_query_param_rust ("/webhook?a=1&q=7") = some 1
    ∧ get_query_param ("/webhook?q=7&b=2") = some 1
    ∧ get_query_param_rust ("/webhook?q=7&b=2") = some 1 := by
  refine ⟨?_, ?_, ?_, by decide, by decide, by decide, by decide⟩
  · intro h
    exact get_query_param_none_eq s h
  · intro h hle
    exact get_query_param_some_eq s pos h hle
  · intro h hle hparse
    rw [get_query_param_some_eq s pos h hle, hparse]
    decide

/-- C9 (witness): the theorem applied at `"/webhook?q=9"`, whose remainder
`"9"` after the occurrence plus one character is a valid u16. -/
theorem get_query_param_first_occurrence_witness :
    findSubstrFrom qPattern ("/webhook?q=9").data 0 = some 8
    ∧ (8 : Nat) + 3 ≤ ("/webhook?q=9").data.length
    ∧ get_query_param ("/webhook?q=9")
      = some (min 500 (max 1
          ((parseU16Chars (("/webhook?q=9").data.drop (8 + 3))).getD 1))) :=
  ⟨by decide, by decide,
    (get_query_param_first_occurrence ("/webhook?q=9") 8 (by decide)).2.1
      (by decide) (by decide)⟩

/-- One successful step of `get_connection` on a nonempty pool: it returns
the client at slot `idx % len` together with the old counter value, and only
bumps the counter. -/
theorem get_connection_step (c : Nat) (cl : List PgConnection)
    (a : PgConnection) (ha : cl[c % cl.length]? = some a) :
    get_connection ⟨c, cl⟩ = some ((a, c), ⟨c + 1, cl⟩) := by
  unfold get_connection
  simp only [ha]

/-- Closed form for `n` successive `get_connection` calls starting from
counter `c` on a nonempty pool: no call panics, the raw indices are
`c, c+1, …, c+n-1`, every returned client sits at slot `raw % len`, and the
final state is the same client list with counter `c + n`. -/
theorem poolCalls_spec (n : Nat) :
    ∀ (c : Nat) (cl : List PgConnection), cl ≠ [] →
      ∃ L, poolCalls n ⟨c, cl⟩ = some (L, ⟨c + n, cl⟩)
        ∧ L.map Prod.snd = List.range' c n
        ∧ ∀ pr ∈ L, cl[pr.2 % cl.length]? = some pr.1 := by
  induction n with
  | zero =>
    intro c cl hcl
    exact ⟨[], by simp [poolCalls], by simp, by simp⟩
  | succ k ih =>
    intro c cl hcl
    have hlen : 0 < cl.length := List.length_pos.mpr hcl
    have hlt : c % cl.length < cl.length := Nat.mod_lt c hlen
    obtain ⟨a, ha⟩ : ∃ a, cl[c % cl.length]? = some a :=
      ⟨_, List.getElem?_eq_getElem hlt⟩
    obtain ⟨L, hL, hmap, hmem⟩ := ih (c + 1) cl hcl
    have hg := get_connection_step c cl a ha
    refine ⟨(a, c) :: L, ?_, ?_, ?_⟩
    · have harith : c + 1 + k = c + (k + 1) := by omega
      simp only [poolCalls, hg, hL, harith]
    · rw [List.map_cons, hmap]
      rfl
    · intro pr hpr
      rcases List.mem_cons.mp hpr with hhd | htl
      · subst hhd
        exact ha
      · exact hmem pr htl

/-- C1: starting from a fresh pool of size N ≥ 1, the first N
`get_connection` calls succeed and their raw indices are exactly
`0, …, N-1` — distinct, increasing, covering `0..N-1`; each call returns the
client at slot `raw % N`; the (N+1)-th call returns raw index N and the
client at slot 0 again; and every call strictly increases the counter. -/
theorem pool_first_cycle (N : Nat) (hN : 1 ≤ N) (clients : List PgConnection)
    (hc : clients.length = N) :
    ∃ L p1,
      poolCalls N ⟨0, clients⟩ = some (L, p1)
      ∧ L.map Prod.snd = List.range N
      ∧ (L.map Prod.snd).Nodup
      ∧ List.Pairwise (· < ·) (L.map Prod.snd)
      ∧ (∀ pr ∈ L, clients[pr.2 % N]? = some pr.1)
      ∧ p1.idx = N
      ∧ p1.clients = clients
      ∧ (∃ r2 p2, get_connection p1 = some (r2, p2)
          ∧ r2.2 = N ∧ clients[0]? = some r2.1)
      ∧ (∀ q r q2, get_connection q = some (r, q2) → q.idx < q2.idx) := by
  subst hc
  have hpos : 0 < clients.length := hN
  have hne : clients ≠ [] := by
    intro h0
    rw [h0] at hpos
    simp at hpos
  obtain ⟨L, hL, hmap, hmem⟩ := poolCalls_spec clients.length 0 clients hne
  have hmap0 : L.map Prod.snd = List.range clients.length := by
    rw [hmap, List.range_eq_range']
  refine ⟨L, ⟨0 + clients.length, clients⟩, hL, hmap0, ?_, ?_, ?_, ?_, rfl, ?_, ?_⟩
  · rw [hmap0]
    exact List.nodup_range _
  · rw [hmap0]
    exact List.pairwise_lt_range _
  · intro pr hpr
    exact hmem pr hpr
  · show 0 + clients.length = clients.length
    omega
  · obtain ⟨a, ha0⟩ : ∃ a, clients[0]? = some a :=
      ⟨_, List.getElem?_eq_getElem hpos⟩
    have ha : clients[(0 + clients.length) % clients.length]? = some a := by
      have hmod : (0 + clients.length) % clients.length = 0 := by
        rw [Nat.zero_add, Nat.mod_self]
      rw [hmod]
      exact ha0
    refine ⟨(a, 0 + clients.length), ⟨0 + clients.length + 1, clients⟩,
      get_connection_step (0 + clients.length) clients a ha, ?_, ha0⟩
    show 0 + clients.length = clients.length
    omega
  · intro q r q2 h
    unfold get_connection at h
    split at h
    · injection h with h1
      have h2 : ({ idx := q.idx + 1, clients := q.clients } : PgConnectionPool) = q2 :=
        congrArg Prod.snd h1
      rw [← h2]
      show q.idx < q.idx + 1
      omega
    · exact Option.noConfusion h

/-- C1 (witness): the cyclic property applied at pool size 2. -/
theorem pool_first_cycle_witness :
    ∃ L p1,
      poolCalls 2 ⟨0, [⟨1⟩, ⟨2⟩]⟩ = some (L, p1)
      ∧ L.map Prod.snd = List.range 2
      ∧ (L.map Prod.snd).Nodup
      ∧ List.Pairwise (· < ·) (L.map Prod.snd)
      ∧ (∀ pr ∈ L, [(⟨1⟩ : PgConnection), ⟨2⟩][pr.2 % 2]? = some pr.1)
      ∧ p1.idx = 2
      ∧ p1.clients = [⟨1⟩, ⟨2⟩]
      ∧ (∃ r2 p2, get_connection p1 = some (r2, p2)
          ∧ r2.2 = 2 ∧ [(⟨1⟩ : PgConnection), ⟨2⟩][0]? = some r2.1)
      ∧ (∀ q r q2, get_connection q = some (r, q2) → q.idx < q2.idx) :=
  pool_first_cycle 2 (by decide) [⟨1⟩, ⟨2⟩] rfl

/-- C6: on any pool holding at least one client, `get_connection` is total
for every counter value: it returns (without error) one of the already-live
clients together with the old counter, never creates a connection (the
client list is unchanged and the returned client is a member of it), and
only bumps the counter. -/
theorem get_connection_total (p : PgConnectionPool) (h : 1 ≤ p.clients.length) :
    ∃ conn p1, get_connection p = some ((conn, p.idx), p1)
      ∧ conn ∈ p.clients ∧ p1.clients = p.clients ∧ p1.idx = p.idx + 1 := by
  have hlt : p.idx % p.clients.length < p.clients.length := Nat.mod_lt p.idx h
  obtain ⟨a, ha⟩ : ∃ a, p.clients[p.idx % p.clients.length]? = some a :=
    ⟨_, List.getElem?_eq_getElem hlt⟩
  refine ⟨a, { p with idx := p.idx + 1 }, ?_, ?_, rfl, rfl⟩
  · unfold get_connection
    simp only [ha]
  · have ha2 : p.clients.get? (p.idx % p.clients.length) = some a := by
      rw [List.get?_eq_getElem?]
      exact ha
    exact List.get?_mem ha2

/-- C6 (witness): totality applied to a size-1 pool with counter 5. -/
theorem get_connection_total_witness :
    ∃ conn p1, get_connection ⟨5, [⟨3⟩]⟩ = some ((conn, 5), p1)
      ∧ conn ∈ [(⟨3⟩ : PgConnection)]
      ∧ p1.clients = [(⟨3⟩ : PgConnection)] ∧ p1.idx = 5 + 1 :=
  get_connection_total ⟨5, [⟨3⟩]⟩ (by decide)

/-- C2 (counterexample): when the bound connection operation fails — here a
database error while streaming the `/users` query — `App::call` does not
produce an HTTP error response: the `.unwrap()` panics the handling task
(modelled as `none`). -/
theorem app_call_panics_on_db_error :
    App.call ("/users") [Except.error ()] (Except.ok []) = none := rfl

/-- C2 (amended): whenever the bound connection operation returns a failure,
`App::call` panics the handling task via `.unwrap()` — for both the
`/users` arm and every `/webhook` arm — instead of converting the failure
into an HTTP error response. -/
theorem app_call_unwrap_on_failure (stream : List (Except Unit Row))
    (upd : Except DbError (List User)) :
    (∀ e, get_users stream = some (Except.error e) →
      App.call ("/users") stream upd = none)
    ∧ (∀ (path : String) (e : DbError), startsWithChars path ("/webhook") = true →
        App.call path stream (Except.error e) = none) := by
  constructor
  · intro e h
    unfold App.call
    rw [if_pos rfl, h]
  · intro path e hsw
    have hne : ¬ (path = "/users") := by
      intro hq
      subst hq
      exact absurd hsw (by decide)
    unfold App.call
    rw [if_neg hne, if_pos hsw]
    cases hq : get_query_param path with
    | none => rfl
    | some q => rfl

/-- C2 (witness): the amended behaviour at concrete inputs — a failing
stream for `GET /users` and a failing update for `GET /webhook?q=1`. -/
theorem app_call_unwrap_on_failure_witness :
    (get_users [Except.error ()] = some (Except.error DbError.QueryFailed))
    ∧ App.call ("/users") [Except.error ()] (Except.ok []) = none
    ∧ startsWithChars ("/webhook?q=1") ("/webhook") = true
    ∧ App.call ("/webhook?q=1") [Except.error ()]
        (Except.error DbError.QueryFailed) = none :=
  ⟨rfl,
    (app_call_unwrap_on_failure [Except.error ()] (Except.ok [])).1
      DbError.QueryFailed rfl,
    by decide,
    (app_call_unwrap_on_failure [Except.error ()]
        (Except.error DbError.QueryFailed)).2 ("/webhook?q=1")
      DbError.QueryFailed (by decide)⟩

/-- Appending strings concatenates their character data. -/
theorem string_data_append (a b : String) : (a ++ b).data = a.data ++ b.data := rfl

/-- The v_htmlescape table never emits an angle bracket. -/
theorem vEscapeChar_count_zero (c : Char) :
    (vEscapeChar c).count '<' = 0 ∧ (vEscapeChar c).count '>' = 0 := by
  unfold vEscapeChar
  by_cases h1 : c = quoteChar
  · subst h1; decide
  simp only [if_neg h1]
  by_cases h2 : c = '&'
  · subst h2; decide
  simp only [if_neg h2]
  by_cases h3 : c = aposChar
  · subst h3; decide
  simp only [if_neg h3]
  by_cases h4 : c = '/'
  · subst h4; decide
  simp only [if_neg h4]
  by_cases h5 : c = '<'
  · subst h5; decide
  simp only [if_neg h5]
  by_cases h6 : c = '='
  · subst h6; decide
  simp only [if_neg h6]
  by_cases h7 : c = '>'
  · subst h7; decide
  simp only [if_neg h7]
  by_cases h8 : c = backtickChar
  · subst h8; decide
  simp only [if_neg h8]
  refine ⟨?_, ?_⟩
  · rw [List.count_eq_zero]
    intro hmem
    rw [List.mem_singleton] at hmem
    exact h5 hmem.symm
  · rw [List.count_eq_zero]
    intro hmem
    rw [List.mem_singleton] at hmem
    exact h7 hmem.symm

/-- The markup default-escape table never emits an angle bracket. -/
theorem markupEscapeChar_count_zero (c : Char) :
    (markupEscapeChar c).count '<' = 0 ∧ (markupEscapeChar c).count '>' = 0 := by
  unfold markupEscapeChar
  by_cases h1 : c = '&'
  · subst h1; decide
  simp only [if_neg h1]
  by_cases h2 : c = '<'
  · subst h2; decide
  simp only [if_neg h2]
  by_cases h3 : c = '>'
  · subst h3; decide
  simp only [if_neg h3]
  by_cases h4 : c = quoteChar
  · subst h4; decide
  simp only [if_neg h4]
  refine ⟨?_, ?_⟩
  · rw [List.count_eq_zero]
    intro hmem
    rw [List.mem_singleton] at hmem
    exact h2 hmem.symm
  · rw [List.count_eq_zero]
    intro hmem
    rw [List.mem_singleton] at hmem
    exact h3 hmem.symm

/-- A character-wise escaping whose table never emits `ch` yields no `ch`. -/
theorem flatten_map_count_zero (f : Char → List Char) (ch : Char)
    (h : ∀ c, (f c).count ch = 0) (s : List Char) :
    ((s.map f).flatten).count ch = 0 := by
  induction s with
  | nil => rfl
  | cons c cs ih =>
    rw [List.map_cons, List.flatten_cons, List.count_append, h c, ih]

/-- Data of one rendered table row, split at the escape boundaries. -/
theorem userRowHtml_data (u : User) :
    (userRowHtml u).data
      = "<tr><td>".data ++ (u.id.data.map markupEscapeChar).flatten
        ++ "</td><td>".data ++ (u.firstName.data.map vEscapeChar).flatten
        ++ "</td><td>".data ++ (u.lastName.data.map vEscapeChar).flatten
        ++ "</td></tr>".data := rfl

/-- Every rendered table row contains exactly the 8 structural `<` and 8
structural `>` of its tags, whatever the field contents. -/
theorem userRowHtml_count (u : User) :
    (userRowHtml u).data.count '<' = 8 ∧ (userRowHtml u).data.count '>' = 8 := by
  have hm1 := flatten_map_count_zero markupEscapeChar '<'
    (fun c => (markupEscapeChar_count_zero c).1) u.id.data
  have hm2 := flatten_map_count_zero markupEscapeChar '>'
    (fun c => (markupEscapeChar_count_zero c).2) u.id.data
  have hv1 := flatten_map_count_zero vEscapeChar '<'
    (fun c => (vEscapeChar_count_zero c).1) u.firstName.data
  have hv2 := flatten_map_count_zero vEscapeChar '>'
    (fun c => (vEscapeChar_count_zero c).2) u.firstName.data
  have hw1 := flatten_map_count_zero vEscapeChar '<'
    (fun c => (vEscapeChar_count_zero c).1) u.lastName.data
  have hw2 := flatten_map_count_zero vEscapeChar '>'
    (fun c => (vEscapeChar_count_zero c).2) u.lastName.data
  constructor
  · rw [userRowHtml_data]
    simp only [List.count_append]
    rw [hm1, hv1, hw1]
    decide
  · rw [userRowHtml_data]
    simp only [List.count_append]
    rw [hm2, hv2, hw2]
    decide

/-- The loop body contributes exactly 8 angle brackets of each kind per
user. -/
theorem usersBodyHtml_count (users : List User) :
    (usersBodyHtml users).data.count '<' = 8 * users.length
    ∧ (usersBodyHtml users).data.count '>' = 8 * users.length := by
  induction users with
  | nil => exact ⟨rfl, rfl⟩
  | cons u us ih =>
    obtain ⟨ih1, ih2⟩ := ih
    obtain ⟨h1, h2⟩ := userRowHtml_count u
    constructor
    · rw [show usersBodyHtml (u :: us) = userRowHtml u ++ usersBodyHtml us from rfl,
        string_data_append, List.count_append, h1, ih1, List.length_cons]
      ring
    · rw [show usersBodyHtml (u :: us) = userRowHtml u ++ usersBodyHtml us from rfl,
        string_data_append, List.count_append, h2, ih2, List.length_cons]
      ring

/-- C10: the template escapes the firstName and lastName fields through
v_htmlescape (and the id field only through markup's default escaping, not
v_htmlescape — the apostrophe shows the difference), so markup characters in
the fields never appear unescaped: the rendered body holds exactly the
static template's angle brackets, 17 plus 8 per user, for every user
list. -/
theorem users_template_escapes_names :
    (∀ u : User, (userRowHtml u).data.count '<' = 8
      ∧ (userRowHtml u).data.count '>' = 8)
    ∧ (∀ users : List User,
        (usersTemplateRender users).data.count '<' = 17 + 8 * users.length
        ∧ (usersTemplateRender users).data.count '>' = 17 + 8 * users.length)
    ∧ userRowHtml ⟨"x", "<b>bold</b>", "it's"⟩
        = "<tr><td>x</td><td>&lt;b&gt;bold&lt;&#x2f;b&gt;</td><td>it&#x27;s</td></tr>"
    ∧ userRowHtml ⟨"'", "a", "b"⟩ = "<tr><td>'</td><td>a</td><td>b</td></tr>"
    ∧ vEscape ("'") = "&#x27;"
    ∧ markupEscape ("'") = "'" := by
  refine ⟨userRowHtml_count, ?_, by decide, by decide, by decide, by decide⟩
  intro users
  obtain ⟨h1, h2⟩ := usersBodyHtml_count users
  have hh1 : templateHeader.data.count '<' = 14 := by decide
  have hh2 : templateHeader.data.count '>' = 14 := by decide
  have hf1 : templateFooter.data.count '<' = 3 := by decide
  have hf2 : templateFooter.data.count '>' = 3 := by decide
  constructor
  · rw [show usersTemplateRender users
        = templateHeader ++ usersBodyHtml users ++ templateFooter from rfl,
      string_data_append, string_data_append, List.count_append,
      List.count_append, h1, hh1, hf1]
    ring
  · rw [show usersTemplateRender users
        = templateHeader ++ usersBodyHtml users ++ templateFooter from rfl,
      string_data_append, string_data_append, List.count_append,
      List.count_append, h2, hh2, hf2]
    ring
